import Mathlib

/-!
Verification of the nutri-tracker backend (Express/Mongoose meal-tracking API).

The JavaScript handlers are shallowly embedded: JS numbers are modelled as
exact rationals extended with the special values NaN and plus/minus Infinity,
the Mongo document store is modelled as a list of records, and each route
handler becomes a pure function from the request and the store to the response
and the updated store.
-/

namespace NutriTracker

/-! ## JS numeric values

`JNum` models a JavaScript number: an exact rational, NaN, or an infinity.
The handlers under verification only ever produce rationals and NaN, but the
arithmetic is defined on all constructors following JS semantics. -/

inductive JNum where
  | num (q : ℚ)
  | nan
  | inf
  | ninf
deriving DecidableEq, Repr

/-- JS binary `+` on numbers. -/
def JNum.add : JNum → JNum → JNum
  | .num a, .num b => .num (a + b)
  | .num _, .inf => .inf
  | .inf, .num _ => .inf
  | .inf, .inf => .inf
  | .num _, .ninf => .ninf
  | .ninf, .num _ => .ninf
  | .ninf, .ninf => .ninf
  | _, _ => .nan

/-- JS binary `-` on numbers. -/
def JNum.sub : JNum → JNum → JNum
  | .num a, .num b => .num (a - b)
  | .num _, .inf => .ninf
  | .inf, .num _ => .inf
  | .num _, .ninf => .inf
  | .ninf, .num _ => .ninf
  | .inf, .ninf => .inf
  | .ninf, .inf => .ninf
  | _, _ => .nan

/-- JS binary `*` on numbers (zero times an infinity is NaN). -/
def JNum.mul : JNum → JNum → JNum
  | .num a, .num b => .num (a * b)
  | .num a, .inf => if a = 0 then .nan else if 0 < a then .inf else .ninf
  | .inf, .num a => if a = 0 then .nan else if 0 < a then .inf else .ninf
  | .num a, .ninf => if a = 0 then .nan else if 0 < a then .ninf else .inf
  | .ninf, .num a => if a = 0 then .nan else if 0 < a then .ninf else .inf
  | .inf, .inf => .inf
  | .ninf, .ninf => .inf
  | .inf, .ninf => .ninf
  | .ninf, .inf => .ninf
  | _, _ => .nan

/-- JS binary `/` on numbers (`0/0` is NaN, `x/0` is a signed infinity). -/
def JNum.div : JNum → JNum → JNum
  | .num a, .num b =>
      if b = 0 then (if a = 0 then .nan else if 0 < a then .inf else .ninf)
      else .num (a / b)
  | .num _, .inf => .num 0
  | .num _, .ninf => .num 0
  | .inf, .num b => if 0 ≤ b then .inf else .ninf
  | .ninf, .num b => if 0 ≤ b then .ninf else .inf
  | _, _ => .nan

/-- JS `Math.ceil` (NaN and infinities are returned unchanged). -/
def JNum.ceil : JNum → JNum
  | .num q => .num (⌈q⌉ : ℤ)
  | x => x

/-- JS truthiness of a number: `0` and `NaN` are falsy. -/
def JNum.truthy : JNum → Bool
  | .num q => q != 0
  | .nan => false
  | _ => true

/-- JS `a || b` restricted to numeric `a`. -/
def JNum.orElse (a b : JNum) : JNum := if a.truthy then a else b

/-- Leading decimal-digit run of a character list: `none` when the list does
not start with a digit (this is what makes `parseInt` return NaN). -/
def parseDigits : List Char → Option ℕ → Option ℕ
  | [], acc => acc
  | c :: cs, acc =>
      if c.isDigit then parseDigits cs (some ((acc.getD 0) * 10 + (c.toNat - 48)))
      else acc

/-- Leading whitespace removal, on the character list of a string. -/
def skipSpaces (cs : List Char) : List Char := cs.dropWhile Char.isWhitespace

/-- Whitespace removal at both ends, on the character list of a string. -/
def trimChars (cs : List Char) : List Char :=
  ((cs.dropWhile Char.isWhitespace).reverse.dropWhile Char.isWhitespace).reverse

/-- Value of an all-digit character list. -/
def digitsVal (cs : List Char) : ℕ :=
  cs.foldl (fun a c => a * 10 + (c.toNat - 48)) 0

/-- JS `parseInt` on a string, for decimal inputs: skips leading whitespace,
reads an optional sign and then the longest leading digit run; NaN when no
digit follows. -/
def parseIntJS (s : String) : JNum :=
  match skipSpaces s.toList with
  | [] => .nan
  | c :: rest =>
      if c = '-' then
        match parseDigits rest none with
        | none => .nan
        | some n => .num (-(n : ℚ))
      else if c = '+' then
        match parseDigits rest none with
        | none => .nan
        | some n => .num ((n : ℚ))
      else
        match parseDigits (c :: rest) none with
        | none => .nan
        | some n => .num ((n : ℚ))

/-- JS string-to-number coercion (as performed by `-`, `*` and `/`), for
decimal integer inputs: the empty/whitespace string is 0, a fully numeric
string is its value, anything else is NaN. -/
def toNumberJS (s : String) : JNum :=
  match trimChars s.toList with
  | [] => .num 0
  | c :: rest =>
      if c = '-' then
        if rest ≠ [] ∧ rest.all Char.isDigit then .num (-(digitsVal rest : ℚ))
        else .nan
      else if c = '+' then
        if rest ≠ [] ∧ rest.all Char.isDigit then .num ((digitsVal rest : ℚ))
        else .nan
      else
        if (c :: rest).all Char.isDigit then .num ((digitsVal (c :: rest) : ℚ))
        else .nan

/-- JS `x || 0` on an ordinary number: the identity, except that falsy `0`
is replaced by the literal `0` (provably the same rational). -/
def orZero (q : ℚ) : ℚ := if q = 0 then 0 else q

theorem orZero_eq (q : ℚ) : orZero q = q := by
  unfold orZero; split <;> simp_all

/-! ## Data model

A stored meal document (src/backend-api/models/MealHistory.js is referenced by
the routes; its fields are those written by the handlers and described in the
spec's data model: per-user ownership, snapshot nutrient totals, timestamp).
Timestamps are milliseconds since the epoch. -/

structure Meal where
  id : ℕ
  userId : ℕ
  foodName : String
  detected : List String
  mealType : String
  calories : ℚ
  protein : ℚ
  carbohydrates : ℚ
  fat : ℚ
  date : ℤ
deriving DecidableEq, Repr

/-- One entry of the `nutrition` array of a save request; each field may be
absent, in which case the handler's `n.calories || 0` contributes 0. -/
structure NutritionItem where
  calories : Option ℚ
  protein : Option ℚ
  carbohydrates : Option ℚ
  fat : Option ℚ
deriving DecidableEq, Repr

/-- Body of POST /api/meals/save. `nutrition = none` models a body whose
`nutrition` is absent or not an array; `foodName = ""` is the falsy case of
`!foodName`. A `date` field that is absent or falsy is modelled as `none`. -/
structure SaveRequest where
  foodName : String
  detected : Option (List String)
  nutrition : Option (List NutritionItem)
  mealType : Option String
  date : Option ℤ
deriving Repr

/-- Accumulator of the totals reduce in the POST /save handler. -/
structure Totals where
  calories : ℚ
  protein : ℚ
  carbohydrates : ℚ
  fat : ℚ
deriving DecidableEq, Repr

/-- The `nutrition.reduce` of the POST /save handler (src/unnamed/part_000
lines 125-134): each field accumulates `n.field || 0`. -/
def computeTotals (nutrition : List NutritionItem) : Totals :=
  nutrition.foldl
    (fun acc n =>
      { calories := acc.calories + (n.calories.getD 0)
        protein := acc.protein + (n.protein.getD 0)
        carbohydrates := acc.carbohydrates + (n.carbohydrates.getD 0)
        fat := acc.fat + (n.fat.getD 0) })
    { calories := 0, protein := 0, carbohydrates := 0, fat := 0 }

/-- Outcome of POST /api/meals/save: either a 400 validation failure, or the
stored meal together with the updated store. -/
inductive SaveResult where
  | validationError (message : String)
  | saved (meal : Meal) (store : List Meal)
deriving Repr

/-- POST /api/meals/save handler (src/unnamed/part_000 lines 113-159):
validates `foodName`/`nutrition`, sums the nutrition items into snapshot
totals, fills defaults (`detected` to `[]`, `mealType` to "snack", `date` to
the current time) and appends the new document to the store. `newId` is the
id Mongo generates for the document and `now` the server clock. -/
def saveMeal (uid : ℕ) (newId : ℕ) (now : ℤ) (req : SaveRequest)
    (store : List Meal) : SaveResult :=
  if req.foodName = "" then
    .validationError "Missing required fields: foodName, nutrition (must be array)"
  else
    match req.nutrition with
    | none =>
        .validationError "Missing required fields: foodName, nutrition (must be array)"
    | some nutrition =>
        let totals := computeTotals nutrition
        let meal : Meal :=
          { id := newId
            userId := uid
            foodName := req.foodName
            detected := req.detected.getD []
            mealType := req.mealType.getD "snack"
            calories := totals.calories
            protein := totals.protein
            carbohydrates := totals.carbohydrates
            fat := totals.fat
            date := req.date.getD now }
        .saved meal (store ++ [meal])

/-- The totals reduce, restated field-by-field as sums over the list. -/
theorem computeTotals_eq (nutrition : List NutritionItem) :
    computeTotals nutrition =
      { calories := (nutrition.map (fun n => n.calories.getD 0)).sum
        protein := (nutrition.map (fun n => n.protein.getD 0)).sum
        carbohydrates := (nutrition.map (fun n => n.carbohydrates.getD 0)).sum
        fat := (nutrition.map (fun n => n.fat.getD 0)).sum } := by
  unfold computeTotals
  suffices h : ∀ (acc : Totals),
      nutrition.foldl
        (fun acc n =>
          { calories := acc.calories + (n.calories.getD 0)
            protein := acc.protein + (n.protein.getD 0)
            carbohydrates := acc.carbohydrates + (n.carbohydrates.getD 0)
            fat := acc.fat + (n.fat.getD 0) }) acc =
        { calories := acc.calories + (nutrition.map (fun n => n.calories.getD 0)).sum
          protein := acc.protein + (nutrition.map (fun n => n.protein.getD 0)).sum
          carbohydrates :=
            acc.carbohydrates + (nutrition.map (fun n => n.carbohydrates.getD 0)).sum
          fat := acc.fat + (nutrition.map (fun n => n.fat.getD 0)).sum } by
    rw [h]; simp
  induction nutrition with
  | nil => intro acc; simp
  | cons n ns ih =>
      intro acc
      simp only [List.foldl_cons, List.map_cons, List.sum_cons, ih]
      congr 1 <;> ring

/-- C1: a valid save request (non-empty `foodName`, `nutrition` present as an
array) stores a meal whose calories/protein/carbohydrates/fat each equal the
sum of that field over the nutrition items, a missing field contributing 0;
the meal is appended to the store. -/
theorem saveMeal_totals (uid newId : ℕ) (now : ℤ) (req : SaveRequest)
    (store : List Meal) (nutrition : List NutritionItem)
    (hfood : req.foodName ≠ "") (hnut : req.nutrition = some nutrition) :
    ∃ meal : Meal,
      saveMeal uid newId now req store = .saved meal (store ++ [meal]) ∧
      meal.calories = (nutrition.map (fun n => n.calories.getD 0)).sum ∧
      meal.protein = (nutrition.map (fun n => n.protein.getD 0)).sum ∧
      meal.carbohydrates = (nutrition.map (fun n => n.carbohydrates.getD 0)).sum ∧
      meal.fat = (nutrition.map (fun n => n.fat.getD 0)).sum := by
  refine ⟨{ id := newId
            userId := uid
            foodName := req.foodName
            detected := req.detected.getD []
            mealType := req.mealType.getD "snack"
            calories := (nutrition.map (fun n => n.calories.getD 0)).sum
            protein := (nutrition.map (fun n => n.protein.getD 0)).sum
            carbohydrates := (nutrition.map (fun n => n.carbohydrates.getD 0)).sum
            fat := (nutrition.map (fun n => n.fat.getD 0)).sum
            date := req.date.getD now }, ?_, rfl, rfl, rfl, rfl⟩
  simp [saveMeal, hfood, hnut, computeTotals_eq]

/-- C1 witness: a concrete save with two nutrition items, the second missing
its protein and fat fields. -/
theorem saveMeal_totals_witness :
    (⟨"rice", none, some
        [⟨some 100, some 3, some 20, some 1⟩, ⟨some 50, none, some 10, none⟩],
      none, none⟩ : SaveRequest).foodName ≠ "" ∧
    ∃ meal : Meal,
      saveMeal 1 7 0
          ⟨"rice", none, some
            [⟨some 100, some 3, some 20, some 1⟩, ⟨some 50, none, some 10, none⟩],
            none, none⟩ [] = .saved meal ([] ++ [meal]) ∧
      meal.calories =
        (([⟨some 100, some 3, some 20, some 1⟩,
           ⟨some 50, none, some 10, none⟩] : List NutritionItem).map
          (fun n => n.calories.getD 0)).sum ∧
      meal.protein =
        (([⟨some 100, some 3, some 20, some 1⟩,
           ⟨some 50, none, some 10, none⟩] : List NutritionItem).map
          (fun n => n.protein.getD 0)).sum ∧
      meal.carbohydrates =
        (([⟨some 100, some 3, some 20, some 1⟩,
           ⟨some 50, none, some 10, none⟩] : List NutritionItem).map
          (fun n => n.carbohydrates.getD 0)).sum ∧
      meal.fat =
        (([⟨some 100, some 3, some 20, some 1⟩,
           ⟨some 50, none, some 10, none⟩] : List NutritionItem).map
          (fun n => n.fat.getD 0)).sum :=
  ⟨by decide, saveMeal_totals 1 7 0 _ [] _ (by decide) rfl⟩

/-! ## Daily summary (GET /daily/:date, src/backend-api/routes/mealHistory.js)

The totals accumulator of this handler is a JS object literal; property reads
on it can miss (yielding `undefined`), so the accumulator is modelled as a
key/value list of number-valued properties. -/

/-- A JS object with number-valued properties, as a key/value list. -/
abbrev JObj := List (String × JNum)

/-- JS property read: `none` is `undefined` (property absent). -/
def jget (o : JObj) (k : String) : Option JNum :=
  (o.find? (fun p => p.1 = k)).map Prod.snd

/-- JS `+` where either operand may be `undefined`: any `undefined` operand
makes the result NaN. -/
def jaddU : Option JNum → Option JNum → JNum
  | some a, some b => a.add b
  | _, _ => .nan

/-- Descending sort by `date`, as Mongo's `sort(\x7bdate: -1\x7d)`. -/
def sortByDateDesc (l : List Meal) : List Meal :=
  l.mergeSort (fun a b => b.date ≤ a.date)

/-- The store query of the daily handler (lines 66-69): the user's meals with
`startOfDay ≤ date ≤ endOfDay`, newest first. `s` and `e` stand for the
`startOfDay`/`endOfDay` millisecond bounds the handler computes from the
request date in local server time. -/
def dailyMeals (store : List Meal) (uid : ℕ) (s e : ℤ) : List Meal :=
  sortByDateDesc (store.filter (fun m => m.userId = uid ∧ s ≤ m.date ∧ m.date ≤ e))

/-- One step of the totals reduce of the daily handler (lines 72-80), written
property-for-property after the source: the step object reads
`acc.calories`, `acc.protein`, `acc.carbohydrates` and `acc.fat` — note that
the accumulator's own keys are `calories`, `protein`, `carbs`, `fat`, so the
`acc.carbohydrates` read misses. -/
def dailyTotalsStep (acc : JObj) (m : Meal) : JObj :=
  [ ("calories", jaddU (jget acc "calories") (some (.num m.calories)))
  , ("protein", jaddU (jget acc "protein") (some (.num (orZero m.protein))))
  , ("carbs", jaddU (jget acc "carbohydrates") (some (.num (orZero m.carbohydrates))))
  , ("fat", jaddU (jget acc "fat") (some (.num (orZero m.fat)))) ]

/-- Initial accumulator of the daily totals reduce. -/
def dailyTotalsInit : JObj :=
  [("calories", .num 0), ("protein", .num 0), ("carbs", .num 0), ("fat", .num 0)]

/-- The `meals.reduce` computing the daily totals. -/
def dailyTotals (meals : List Meal) : JObj :=
  meals.foldl dailyTotalsStep dailyTotalsInit

/-- Result of GET /daily/:date. -/
structure DailyResult where
  meals : List Meal
  totals : JObj
deriving Repr

/-- GET /daily/:date handler (lines 60-91): fetch the day's meals for the
user and reduce them into the totals object. -/
def dailySummary (store : List Meal) (uid : ℕ) (s e : ℤ) : DailyResult :=
  let meals := dailyMeals store uid s e
  { meals := meals, totals := dailyTotals meals }

/-- C2: on a day holding a single meal with 5 g of carbohydrates, the daily
summary does return exactly that meal, but its `totals.carbs` is NaN rather
than the sum 5: the reduce reads `acc.carbohydrates`, a property the
accumulator does not have (its key is `carbs`), so `undefined + 5` is NaN. -/
theorem dailySummary_carbs_nan :
    dailySummary [⟨1, 1, "rice", [], "lunch", 100, 3, 5, 1, 500⟩] 1 0 86399999 =
      { meals := [⟨1, 1, "rice", [], "lunch", 100, 3, 5, 1, 500⟩]
        totals := [ ("calories", .num 100), ("protein", .num 3)
                  , ("carbs", .nan), ("fat", .num 1) ] } ∧
    jget (dailySummary [⟨1, 1, "rice", [], "lunch", 100, 3, 5, 1, 500⟩]
        1 0 86399999).totals "carbs" ≠ some (.num 5) := by
  constructor
  · simp [dailySummary, dailyMeals, sortByDateDesc, dailyTotals, dailyTotalsInit,
      dailyTotalsStep, jget, jaddU, JNum.add, orZero, List.mergeSort_singleton]
  · simp [dailySummary, dailyMeals, sortByDateDesc, dailyTotals, dailyTotalsInit,
      dailyTotalsStep, jget, jaddU, JNum.add, orZero, List.mergeSort_singleton]

/-! ## Monthly summary (GET /monthly/:year/:month, mealHistory.js lines 94-156)

Meals are grouped by the calendar day of their timestamp (the source groups by
the date component of `toISOString`, i.e. the UTC day, modelled as floor
division of the millisecond timestamp by the length of a day). -/

/-- Calendar (UTC) day of a millisecond timestamp: two timestamps get the same
key exactly when `toISOString` gives them the same date component. -/
def dayKey (t : ℤ) : ℤ := Int.fdiv t 86400000

/-- Per-day accumulator of the monthly handler's `dailyData` map. -/
structure DayAgg where
  calories : ℚ
  protein : ℚ
  carbs : ℚ
  fat : ℚ
  mealCount : ℕ
deriving DecidableEq, Repr

/-- Adding one meal into a day's accumulator (lines 118-122). -/
def bumpDay (agg : DayAgg) (m : Meal) : DayAgg :=
  { calories := agg.calories + m.calories
    protein := agg.protein + orZero m.protein
    carbs := agg.carbs + orZero m.carbohydrates
    fat := agg.fat + orZero m.fat
    mealCount := agg.mealCount + 1 }

/-- The fresh per-day accumulator (lines 110-116). -/
def emptyDay : DayAgg := ⟨0, 0, 0, 0, 0⟩

/-- One step of the grouping loop (lines 107-123): create the day's entry if
absent, then accumulate the meal into it. `dailyData` is an insertion-ordered
key/value list, as a JS object is. -/
def addToDaily (dd : List (ℤ × DayAgg)) (m : Meal) : List (ℤ × DayAgg) :=
  if dd.any (fun p => p.1 = dayKey m.date) then
    dd.map (fun p => if p.1 = dayKey m.date then (p.1, bumpDay p.2 m) else p)
  else
    dd ++ [(dayKey m.date, bumpDay emptyDay m)]

/-- The whole grouping loop over the month's meals. -/
def monthlyDailyData (meals : List Meal) : List (ℤ × DayAgg) :=
  meals.foldl addToDaily []

/-- The store query of the monthly handler (lines 100-103): the user's meals
with `startDate ≤ date ≤ endDate`, where `s`/`e` stand for the millisecond
bounds the handler computes from the year and month. -/
def monthlyMeals (store : List Meal) (uid : ℕ) (s e : ℤ) : List Meal :=
  store.filter (fun m => m.userId = uid ∧ s ≤ m.date ∧ m.date ≤ e)

/-- The `monthlyTotals` object (lines 126-144); `avgCalories` is a JS number
because the empty-month division `0 / 0` is NaN. -/
structure MonthlyTotals where
  totalCalories : ℚ
  avgCalories : JNum
  totalProtein : ℚ
  totalCarbs : ℚ
  totalFat : ℚ
deriving DecidableEq, Repr

/-- The reduce over `Object.values(dailyData)` (lines 126-141) followed by the
`avgCalories` assignment dividing by `Object.keys(dailyData).length`
(lines 143-144). -/
def monthlyBase (dd : List (ℤ × DayAgg)) : MonthlyTotals :=
  dd.foldl
    (fun (acc : MonthlyTotals) p =>
      { totalCalories := acc.totalCalories + p.2.calories
        avgCalories := .num 0
        totalProtein := acc.totalProtein + p.2.protein
        totalCarbs := acc.totalCarbs + p.2.carbs
        totalFat := acc.totalFat + p.2.fat })
    (⟨0, .num 0, 0, 0, 0⟩ : MonthlyTotals)

def monthlyTotalsOf (dd : List (ℤ × DayAgg)) : MonthlyTotals :=
  { monthlyBase dd with
      avgCalories :=
        JNum.div (.num (monthlyBase dd).totalCalories) (.num (dd.length : ℚ)) }

/-- Result of GET /monthly/:year/:month. -/
structure MonthlyResult where
  dailyData : List (ℤ × DayAgg)
  monthlyTotals : MonthlyTotals
deriving Repr

/-- GET /monthly/:year/:month handler. -/
def monthlySummary (store : List Meal) (uid : ℕ) (s e : ℤ) : MonthlyResult :=
  let dd := monthlyDailyData (monthlyMeals store uid s e)
  { dailyData := dd, monthlyTotals := monthlyTotalsOf dd }

/-- Sum of the per-day calorie sums of a `dailyData` list. -/
def ddCal (dd : List (ℤ × DayAgg)) : ℚ := (dd.map (fun p => p.2.calories)).sum

theorem keys_addToDaily (dd : List (ℤ × DayAgg)) (m : Meal) :
    (addToDaily dd m).map Prod.fst =
      if dayKey m.date ∈ dd.map Prod.fst then dd.map Prod.fst
      else dd.map Prod.fst ++ [dayKey m.date] := by
  unfold addToDaily
  by_cases h : dayKey m.date ∈ dd.map Prod.fst
  · have hany : dd.any (fun p => decide (p.1 = dayKey m.date)) = true := by
      rw [List.any_eq_true]
      obtain ⟨p, hp, hfst⟩ := List.mem_map.mp h
      exact ⟨p, hp, by simp [hfst]⟩
    simp only [hany, if_true, h, List.map_map]
    apply List.map_congr_left
    intro p _
    by_cases hk : p.1 = dayKey m.date <;> simp [hk]
  · have hany : dd.any (fun p => decide (p.1 = dayKey m.date)) = false := by
      rw [List.any_eq_false]
      intro p hp
      simp only [decide_eq_true_eq]
      intro hk
      exact h (List.mem_map.mpr ⟨p, hp, hk⟩)
    simp [hany, h]

theorem nodup_keys_addToDaily (dd : List (ℤ × DayAgg)) (m : Meal)
    (h : (dd.map Prod.fst).Nodup) : ((addToDaily dd m).map Prod.fst).Nodup := by
  rw [keys_addToDaily]
  by_cases hk : dayKey m.date ∈ dd.map Prod.fst
  · simpa [hk] using h
  · simp only [hk, if_false]
    exact List.Nodup.append h (List.nodup_singleton _)
      (by simpa using fun hmem => hk hmem)

theorem mem_keys_addToDaily (dd : List (ℤ × DayAgg)) (m : Meal) (k : ℤ) :
    k ∈ (addToDaily dd m).map Prod.fst ↔
      k ∈ dd.map Prod.fst ∨ k = dayKey m.date := by
  rw [keys_addToDaily]
  by_cases hk : dayKey m.date ∈ dd.map Prod.fst
  · simp only [hk, if_true]
    constructor
    · exact fun h => Or.inl h
    · rintro (h | rfl)
      · exact h
      · exact hk
  · simp [hk]

theorem ddCal_update (dd : List (ℤ × DayAgg)) (k : ℤ) (m : Meal)
    (h : (dd.map Prod.fst).Nodup) (hk : k ∈ dd.map Prod.fst) :
    ddCal (dd.map (fun p => if p.1 = k then (p.1, bumpDay p.2 m) else p)) =
      ddCal dd + m.calories := by
  induction dd with
  | nil => simp at hk
  | cons p rest ih =>
      have h1 : (p.1 :: rest.map Prod.fst).Nodup := by
        rw [List.map_cons] at h; exact h
      by_cases hp : p.1 = k
      · have hrest : ∀ r ∈ rest, ¬r.1 = k := by
          intro r hr hrk
          exact (List.nodup_cons.mp h1).1
            (by rw [hp, ← hrk]; exact List.mem_map.mpr ⟨r, hr, rfl⟩)
        have hmap : rest.map (fun p => if p.1 = k then (p.1, bumpDay p.2 m) else p)
            = rest := by
          rw [List.map_congr_left (g := id) (fun r hr => by simp [hrest r hr]),
            List.map_id]
        rw [List.map_cons, hmap, if_pos hp]
        simp only [ddCal, List.map_cons, List.sum_cons, bumpDay]
        ring
      · have hk' : k ∈ rest.map Prod.fst := by
          rcases List.mem_map.mp hk with ⟨q, hq, hqk⟩
          rcases List.mem_cons.mp hq with rfl | hq'
          · exact absurd hqk hp
          · exact List.mem_map.mpr ⟨q, hq', hqk⟩
        have h' : (rest.map Prod.fst).Nodup := (List.nodup_cons.mp h1).2
        rw [List.map_cons, if_neg hp]
        have hrec := ih h' hk'
        simp only [ddCal, List.map_cons, List.sum_cons] at hrec ⊢
        rw [hrec]
        ring

theorem ddCal_addToDaily (dd : List (ℤ × DayAgg)) (m : Meal)
    (h : (dd.map Prod.fst).Nodup) :
    ddCal (addToDaily dd m) = ddCal dd + m.calories := by
  unfold addToDaily
  by_cases hk : dayKey m.date ∈ dd.map Prod.fst
  · have hany : dd.any (fun p => decide (p.1 = dayKey m.date)) = true := by
      rw [List.any_eq_true]
      obtain ⟨p, hp, hfst⟩ := List.mem_map.mp hk
      exact ⟨p, hp, by simp [hfst]⟩
    simp only [hany, if_true]
    exact ddCal_update dd (dayKey m.date) m h hk
  · have hany : dd.any (fun p => decide (p.1 = dayKey m.date)) = false := by
      rw [List.any_eq_false]
      intro p hp
      simp only [decide_eq_true_eq]
      intro hkk
      exact hk (List.mem_map.mpr ⟨p, hp, hkk⟩)
    simp [hany, ddCal, bumpDay, emptyDay]

theorem monthlyFold_invariant (meals : List Meal) :
    ∀ dd : List (ℤ × DayAgg), (dd.map Prod.fst).Nodup →
      ((meals.foldl addToDaily dd).map Prod.fst).Nodup ∧
      (∀ k, k ∈ (meals.foldl addToDaily dd).map Prod.fst ↔
        k ∈ dd.map Prod.fst ∨ k ∈ meals.map (fun m => dayKey m.date)) ∧
      ddCal (meals.foldl addToDaily dd) = ddCal dd + (meals.map Meal.calories).sum := by
  induction meals with
  | nil => intro dd h; refine ⟨h, fun k => by simp, by simp⟩
  | cons m ms ih =>
      intro dd h
      have hstep := nodup_keys_addToDaily dd m h
      obtain ⟨hn, hm, hc⟩ := ih (addToDaily dd m) hstep
      refine ⟨by simpa using hn, fun k => ?_, ?_⟩
      · rw [List.foldl_cons, hm k, mem_keys_addToDaily]
        simp only [List.map_cons, List.mem_cons]
        tauto
      · rw [List.foldl_cons, hc, ddCal_addToDaily dd m h]
        simp only [List.map_cons, List.sum_cons]
        ring

theorem monthlyDailyData_length (meals : List Meal) :
    (monthlyDailyData meals).length =
      ((meals.map (fun m => dayKey m.date)).toFinset).card := by
  obtain ⟨hn, hm, _⟩ := monthlyFold_invariant meals [] (by simp)
  unfold monthlyDailyData
  have hkeys : ((meals.foldl addToDaily []).map Prod.fst).toFinset =
      (meals.map (fun m => dayKey m.date)).toFinset := by
    ext k
    rw [List.mem_toFinset, List.mem_toFinset, hm k]
    simp
  calc (meals.foldl addToDaily []).length
      = ((meals.foldl addToDaily []).map Prod.fst).length := by
        rw [List.length_map]
    _ = ((meals.foldl addToDaily []).map Prod.fst).toFinset.card :=
        (List.toFinset_card_of_nodup hn).symm
    _ = ((meals.map (fun m => dayKey m.date)).toFinset).card := by rw [hkeys]

theorem monthlyDailyData_ddCal (meals : List Meal) :
    ddCal (monthlyDailyData meals) = (meals.map Meal.calories).sum := by
  obtain ⟨_, _, hc⟩ := monthlyFold_invariant meals [] (by simp)
  unfold monthlyDailyData
  rw [hc]
  simp [ddCal]

theorem monthlyBase_totalCalories (dd : List (ℤ × DayAgg)) :
    (monthlyBase dd).totalCalories = ddCal dd := by
  suffices h : ∀ acc : MonthlyTotals,
      (dd.foldl
        (fun (acc : MonthlyTotals) p =>
          { totalCalories := acc.totalCalories + p.2.calories
            avgCalories := .num 0
            totalProtein := acc.totalProtein + p.2.protein
            totalCarbs := acc.totalCarbs + p.2.carbs
            totalFat := acc.totalFat + p.2.fat }) acc).totalCalories =
        acc.totalCalories + ddCal dd by
    unfold monthlyBase
    rw [h]
    simp
  induction dd with
  | nil => intro acc; simp [ddCal]
  | cons p rest ih =>
      intro acc
      rw [List.foldl_cons, ih]
      simp only [ddCal, List.map_cons, List.sum_cons]
      ring

theorem monthlyTotalsOf_avg (dd : List (ℤ × DayAgg)) :
    (monthlyTotalsOf dd).avgCalories =
      JNum.div (.num (ddCal dd)) (.num (dd.length : ℚ)) := by
  unfold monthlyTotalsOf
  rw [monthlyBase_totalCalories]

/-- C3: when the month has at least one meal for the user, `avgCalories` is
the month's total calories divided by the number of distinct calendar days
that have at least one meal (not by the number of days in the month). -/
theorem monthlySummary_avgCalories (store : List Meal) (uid : ℕ) (s e : ℤ)
    (h : monthlyMeals store uid s e ≠ []) :
    (monthlySummary store uid s e).monthlyTotals.avgCalories =
      .num ((((monthlyMeals store uid s e).map Meal.calories).sum) /
        ((((monthlyMeals store uid s e).map (fun m => dayKey m.date)).toFinset.card
          : ℚ))) := by
  have hcard : ((((monthlyMeals store uid s e).map
      (fun m => dayKey m.date)).toFinset.card : ℚ)) ≠ 0 := by
    have hne : ((monthlyMeals store uid s e).map (fun m => dayKey m.date)) ≠ [] := by
      intro hnil
      exact h (List.map_eq_nil_iff.mp hnil)
    have := Finset.Nonempty.card_ne_zero
      ((List.toFinset_nonempty_iff _).mpr hne)
    exact_mod_cast this
  unfold monthlySummary
  rw [monthlyTotalsOf_avg, monthlyDailyData_ddCal, monthlyDailyData_length]
  simp only [JNum.div, if_neg hcard]

/-- C3 witness: meals on three distinct days with per-day calorie sums
100, 200 and 300 give avgCalories 200 (the second day's sum is split over
two meals). -/
theorem monthlySummary_avgCalories_witness :
    monthlyMeals
      [⟨1, 1, "a", [], "snack", 100, 0, 0, 0, 1000⟩,
       ⟨2, 1, "b", [], "snack", 150, 0, 0, 0, 86400002⟩,
       ⟨3, 1, "c", [], "snack", 50, 0, 0, 0, 86400003⟩,
       ⟨4, 1, "d", [], "snack", 300, 0, 0, 0, 172800005⟩] 1 0 864000000 ≠ [] ∧
    (monthlySummary
      [⟨1, 1, "a", [], "snack", 100, 0, 0, 0, 1000⟩,
       ⟨2, 1, "b", [], "snack", 150, 0, 0, 0, 86400002⟩,
       ⟨3, 1, "c", [], "snack", 50, 0, 0, 0, 86400003⟩,
       ⟨4, 1, "d", [], "snack", 300, 0, 0, 0, 172800005⟩]
      1 0 864000000).monthlyTotals.avgCalories = .num 200 := by
  have h : monthlyMeals
      [⟨1, 1, "a", [], "snack", 100, 0, 0, 0, 1000⟩,
       ⟨2, 1, "b", [], "snack", 150, 0, 0, 0, 86400002⟩,
       ⟨3, 1, "c", [], "snack", 50, 0, 0, 0, 86400003⟩,
       ⟨4, 1, "d", [], "snack", 300, 0, 0, 0, 172800005⟩] 1 0 864000000 ≠ [] := by
    decide
  refine ⟨h, ?_⟩
  rw [monthlySummary_avgCalories _ _ _ _ h]
  have hmm : monthlyMeals
      [⟨1, 1, "a", [], "snack", 100, 0, 0, 0, 1000⟩,
       ⟨2, 1, "b", [], "snack", 150, 0, 0, 0, 86400002⟩,
       ⟨3, 1, "c", [], "snack", 50, 0, 0, 0, 86400003⟩,
       ⟨4, 1, "d", [], "snack", 300, 0, 0, 0, 172800005⟩] 1 0 864000000 =
      [⟨1, 1, "a", [], "snack", 100, 0, 0, 0, 1000⟩,
       ⟨2, 1, "b", [], "snack", 150, 0, 0, 0, 86400002⟩,
       ⟨3, 1, "c", [], "snack", 50, 0, 0, 0, 86400003⟩,
       ⟨4, 1, "d", [], "snack", 300, 0, 0, 0, 172800005⟩] := rfl
  rw [hmm]
  have hcard : (([⟨1, 1, "a", [], "snack", 100, 0, 0, 0, 1000⟩,
       ⟨2, 1, "b", [], "snack", 150, 0, 0, 0, 86400002⟩,
       ⟨3, 1, "c", [], "snack", 50, 0, 0, 0, 86400003⟩,
       ⟨4, 1, "d", [], "snack", 300, 0, 0, 0, 172800005⟩] : List Meal).map
        (fun m => dayKey m.date)).toFinset.card = 3 := by decide
  rw [hcard]
  norm_num

/-- C10: a month with no meals for the user divides 0 by 0, so the returned
`monthlyTotals.avgCalories` is NaN rather than 0 or an error. -/
theorem monthlySummary_empty_nan (store : List Meal) (uid : ℕ) (s e : ℤ)
    (h : monthlyMeals store uid s e = []) :
    (monthlySummary store uid s e).monthlyTotals.avgCalories = .nan := by
  unfold monthlySummary
  rw [h]
  simp [monthlyDailyData, monthlyTotalsOf, monthlyBase, JNum.div]

/-- C10 witness: the empty store over any month window. -/
theorem monthlySummary_empty_nan_witness :
    monthlyMeals [] 1 0 864000000 = [] ∧
    (monthlySummary [] 1 0 864000000).monthlyTotals.avgCalories = .nan :=
  ⟨rfl, monthlySummary_empty_nan [] 1 0 864000000 rfl⟩

/-! ## Paginated history (GET /history)

Two variants exist: src/unnamed/part_000 lines 162-186 parses the query
parameters with `parseInt(...) || default`, while
src/backend-api/routes/mealHistory.js lines 159-185 uses the raw query string
(`req.query.page || 1`) and only coerces when computing `skip` and when
echoing `parseInt(page)` in the response. -/

/-- Pagination object of the /history response. -/
structure Pagination where
  total : ℕ
  page : JNum
  limit : JNum
  pages : JNum
deriving DecidableEq, Repr

/-- Response of GET /history. -/
structure HistoryResult where
  meals : List Meal
  pagination : Pagination
deriving Repr

/-- `parseInt(req.query.x) || d`: an absent parameter is `undefined`, and
`parseInt(undefined)` is NaN, so the default also covers absence; NaN and 0
are falsy. -/
def parseIntOr (q : Option String) (d : ℚ) : JNum :=
  JNum.orElse (match q with | none => .nan | some s => parseIntJS s) (.num d)

/-- Integer value a JNum denotes when fed to the driver's `skip`/`limit`;
every statement proved below constrains the argument to be a nonnegative
integer, where this is exact. -/
def JNum.toNatClamp : JNum → ℕ
  | .num q => (⌊q⌋).toNat
  | _ => 0

/-- The user's meals newest first: `find(\x7buserId\x7d).sort(\x7bdate: -1\x7d)`. -/
def userMealsDesc (store : List Meal) (uid : ℕ) : List Meal :=
  sortByDateDesc (store.filter (fun m => m.userId = uid))

/-- GET /history handler of src/unnamed/part_000 (lines 162-186):
`page = parseInt(req.query.page) || 1`, `limit = parseInt(req.query.limit) || 10`,
`skip = (page - 1) * limit`, query skips and limits the user's meals sorted by
date descending, `pages = Math.ceil(total / limit)`. -/
def listMeals (store : List Meal) (uid : ℕ) (pageQ limitQ : Option String) :
    HistoryResult :=
  let page := parseIntOr pageQ 1
  let limit := parseIntOr limitQ 10
  let skip := JNum.mul (JNum.sub page (.num 1)) limit
  let total := (store.filter (fun m => m.userId = uid)).length
  { meals := ((userMealsDesc store uid).drop skip.toNatClamp).take limit.toNatClamp
    pagination :=
      { total := total
        page := page
        limit := limit
        pages := JNum.ceil (JNum.div (.num (total : ℚ)) limit) } }

/-- A JS value that is either a string (a present query parameter) or a
number (the defaults 1 and 10). -/
inductive JSVal where
  | str (s : String)
  | jnum (n : JNum)
deriving DecidableEq, Repr

/-- JS numeric coercion of such a value, as `-`, `*` and `/` apply it. -/
def JSVal.toNumber : JSVal → JNum
  | .str s => toNumberJS s
  | .jnum n => n

/-- `parseInt` applied to such a value (a number argument is stringified
first; the integer defaults round-trip to themselves, NaN and the infinities
parse to NaN). -/
def JSVal.parseIntOf : JSVal → JNum
  | .str s => parseIntJS s
  | .jnum (.num q) => .num (⌊q⌋ : ℤ)
  | .jnum _ => .nan

/-- `req.query.x || d` on the raw query value: absent gives the numeric
default, the empty string is falsy and also gives the default, any other
string (numeric or not) is kept as a string. -/
def rawQueryOr (q : Option String) (d : ℚ) : JSVal :=
  match q with
  | none => .jnum (.num d)
  | some s => if s = "" then .jnum (.num d) else .str s

/-- GET /history handler of src/backend-api/routes/mealHistory.js
(lines 159-185): `page = req.query.page || 1` without parsing, so `skip`
arithmetic coerces the raw string and `pagination.page` echoes
`parseInt(page)`. -/
def listMealsAlt (store : List Meal) (uid : ℕ) (pageQ limitQ : Option String) :
    HistoryResult :=
  let page := rawQueryOr pageQ 1
  let limit := rawQueryOr limitQ 10
  let skip := JNum.mul (JNum.sub page.toNumber (.num 1)) limit.toNumber
  let total := (store.filter (fun m => m.userId = uid)).length
  { meals :=
      ((userMealsDesc store uid).drop skip.toNatClamp).take
        limit.toNumber.toNatClamp
    pagination :=
      { total := total
        page := page.parseIntOf
        limit := limit.parseIntOf
        pages := JNum.ceil (JNum.div (.num (total : ℚ)) limit.toNumber) } }

theorem mem_sortByDateDesc {m : Meal} {l : List Meal} :
    m ∈ sortByDateDesc l ↔ m ∈ l :=
  List.mem_mergeSort

theorem sortByDateDesc_pairwise (l : List Meal) :
    List.Pairwise (fun a b : Meal => b.date ≤ a.date) (sortByDateDesc l) := by
  have h := @List.sorted_mergeSort Meal
    (fun a b : Meal => decide (b.date ≤ a.date))
    (fun a b c hab hbc => by
      simp only [decide_eq_true_eq] at hab hbc ⊢
      omega)
    (fun a b => by
      simp only [Bool.or_eq_true, decide_eq_true_eq]
      omega)
    l
  exact h.imp (fun hab => by simpa using hab)

/-- C4 counterexample: in the mealHistory.js GET /history variant a
non-numeric page parameter is not replaced by the default 1; the response's
`pagination.page` is `parseInt("abc")`, i.e. NaN. -/
theorem listMealsAlt_page_nan :
    (listMealsAlt [] 1 (some "abc") none).pagination.page = JNum.nan ∧
    JNum.nan ≠ JNum.num 1 := by
  exact ⟨rfl, by decide⟩

/-- C4 (amended): the part_000 GET /history handler returns only the
authenticated user's meals, ordered by date descending, as the
`(page-1)*limit`-skip / `limit`-take window of that list, with
`pages = ceil(total/limit)`; its page and limit fall back to 1 and 10 when
the query parameter is absent or non-numeric. -/
theorem listMeals_spec (store : List Meal) (uid : ℕ) (pageQ limitQ : Option String)
    (p l : ℕ)
    (hp : parseIntOr pageQ 1 = .num ((p : ℚ))) (hp1 : 1 ≤ p)
    (hl : parseIntOr limitQ 10 = .num ((l : ℚ))) (hl1 : 1 ≤ l) :
    (∀ m ∈ (listMeals store uid pageQ limitQ).meals, m.userId = uid) ∧
    List.Pairwise (fun a b : Meal => b.date ≤ a.date)
      (listMeals store uid pageQ limitQ).meals ∧
    (listMeals store uid pageQ limitQ).meals =
      ((userMealsDesc store uid).drop ((p - 1) * l)).take l ∧
    (listMeals store uid pageQ limitQ).pagination.pages =
      .num ((⌈((store.filter (fun m => m.userId = uid)).length : ℚ) / (l : ℚ)⌉ : ℤ)) ∧
    (pageQ = none → p = 1) ∧
    (∀ s, pageQ = some s → parseIntJS s = .nan → p = 1) ∧
    (limitQ = none → l = 10) ∧
    (∀ s, limitQ = some s → parseIntJS s = .nan → l = 10) := by
  have hlq : ((l : ℚ)) ≠ 0 := by
    simp only [ne_eq, Nat.cast_eq_zero]
    omega
  have hskip : (JNum.mul (JNum.sub (.num ((p : ℚ))) (.num 1)) (.num ((l : ℚ)))).toNatClamp
      = (p - 1) * l := by
    simp only [JNum.sub, JNum.mul, JNum.toNatClamp]
    rw [show ((p : ℚ) - 1) * (l : ℚ) = (((p - 1) * l : ℕ) : ℚ) by
      rw [Nat.cast_mul, Nat.cast_sub hp1, Nat.cast_one]]
    rw [Int.floor_natCast, Int.toNat_natCast]
  have hlim : (JNum.num ((l : ℚ))).toNatClamp = l := by
    simp only [JNum.toNatClamp]
    rw [Int.floor_natCast, Int.toNat_natCast]
  have hmeals : (listMeals store uid pageQ limitQ).meals =
      ((userMealsDesc store uid).drop ((p - 1) * l)).take l := by
    unfold listMeals
    simp only [hp, hl, hskip, hlim]
  have hsub : ((listMeals store uid pageQ limitQ).meals).Sublist
      (userMealsDesc store uid) := by
    rw [hmeals]
    exact (List.take_sublist _ _).trans (List.drop_sublist _ _)
  refine ⟨?_, ?_, hmeals, ?_, ?_, ?_, ?_, ?_⟩
  · intro m hm
    have hmem : m ∈ userMealsDesc store uid := hsub.mem hm
    have := mem_sortByDateDesc.mp hmem
    have := List.mem_filter.mp this
    simpa using this.2
  · exact (sortByDateDesc_pairwise _).sublist hsub
  · unfold listMeals
    rw [hl]
    simp only [JNum.div, if_neg hlq, JNum.ceil]
  · intro hq
    rw [hq, show parseIntOr none (1 : ℚ) = JNum.num 1 by decide] at hp
    injection hp with h2
    exact_mod_cast h2.symm
  · intro s hq hnan
    rw [hq] at hp
    simp only [parseIntOr, hnan] at hp
    rw [show JNum.orElse .nan (.num 1) = JNum.num 1 by decide] at hp
    injection hp with h2
    exact_mod_cast h2.symm
  · intro hq
    rw [hq, show parseIntOr none (10 : ℚ) = JNum.num 10 by decide] at hl
    injection hl with h2
    exact_mod_cast h2.symm
  · intro s hq hnan
    rw [hq] at hl
    simp only [parseIntOr, hnan] at hl
    rw [show JNum.orElse .nan (.num 10) = JNum.num 10 by decide] at hl
    injection hl with h2
    exact_mod_cast h2.symm

/-- C4 amended-claim witness: page "3", limit "10" on a concrete store. -/
theorem listMeals_spec_witness :
    parseIntOr (some "3") 1 = .num ((3 : ℕ) : ℚ) ∧ (1 : ℕ) ≤ 3 ∧
    parseIntOr (some "10") 10 = .num ((10 : ℕ) : ℚ) ∧ (1 : ℕ) ≤ 10 ∧
    ∀ m ∈ (listMeals [⟨1, 2, "a", [], "snack", 1, 1, 1, 1, 5⟩] 1
        (some "3") (some "10")).meals, m.userId = 1 :=
  ⟨by decide, by decide, by decide, by decide,
   (listMeals_spec [⟨1, 2, "a", [], "snack", 1, 1, 1, 1, 5⟩] 1
      (some "3") (some "10") 3 10 (by decide) (by decide) (by decide)
      (by decide)).1⟩

/-! ## Delete (DELETE /api/meals/:id)

Two variants: src/unnamed/part_000 lines 203-219 uses
`findByIdAndDelete(req.params.id)` (matched by id alone), while
mealHistory.js lines 188-206 uses `findOneAndDelete(\x7b_id, userId\x7d)`
(matched by id and owning user). -/

/-- Response of a delete request. -/
structure DeleteResponse where
  status : ℕ
  success : Bool
  message : String
deriving DecidableEq, Repr

/-- part_000 delete handler: match by id alone; 404 when no document has the
id, otherwise remove it. -/
def deleteMealById (store : List Meal) (mid : ℕ) : DeleteResponse × List Meal :=
  match store.find? (fun m => m.id = mid) with
  | none => (⟨404, false, "Meal not found"⟩, store)
  | some _ =>
      (⟨200, true, "Meal deleted successfully"⟩, store.eraseP (fun m => m.id = mid))

/-- mealHistory.js delete handler: match by id and owner; 404 when the
authenticated user owns no document with the id, otherwise remove it. -/
def deleteMealOwned (store : List Meal) (uid mid : ℕ) : DeleteResponse × List Meal :=
  match store.find? (fun m => m.id = mid ∧ m.userId = uid) with
  | none => (⟨404, false, "Meal not found"⟩, store)
  | some _ =>
      (⟨200, true, "Meal deleted successfully"⟩,
        store.eraseP (fun m => m.id = mid ∧ m.userId = uid))

/-- C5: the two delete variants are not equivalent. For a store holding one
meal with id 5 owned by user 2 and a requester authenticated as user 1, the
part_000 variant deletes the meal and answers success, while the
mealHistory.js variant answers 404 and leaves the store unchanged. -/
theorem delete_variants_differ :
    deleteMealById [⟨5, 2, "a", [], "snack", 1, 1, 1, 1, 0⟩] 5 =
      (⟨200, true, "Meal deleted successfully"⟩, []) ∧
    deleteMealOwned [⟨5, 2, "a", [], "snack", 1, 1, 1, 1, 0⟩] 1 5 =
      (⟨404, false, "Meal not found"⟩, [⟨5, 2, "a", [], "snack", 1, 1, 1, 1, 0⟩]) :=
  ⟨rfl, rfl⟩

/-- C9: the part_000 delete answers 404 exactly when no meal with the id
exists; a 404 leaves the store unchanged; and — under the store invariant
that document ids are unique — after a successful delete, deleting the same
id again answers 404 and changes nothing. -/
theorem deleteMealById_idempotent (store : List Meal) (mid : ℕ)
    (hnodup : (store.map Meal.id).Nodup) :
    ((deleteMealById store mid).1.status = 404 ↔ ∀ m ∈ store, m.id ≠ mid) ∧
    ((deleteMealById store mid).1.status = 404 →
      (deleteMealById store mid).2 = store) ∧
    ((deleteMealById store mid).1.status = 200 →
      (deleteMealById (deleteMealById store mid).2 mid).1.status = 404 ∧
      (deleteMealById (deleteMealById store mid).2 mid).2 =
        (deleteMealById store mid).2) := by
  match hfind : store.find? (fun m => decide (m.id = mid)) with
  | none =>
      have hnone := List.find?_eq_none.mp hfind
      refine ⟨⟨fun _ m hm => by simpa using hnone m hm, fun _ => ?_⟩, fun _ => ?_, ?_⟩
      · simp [deleteMealById, hfind]
      · simp [deleteMealById, hfind]
      · intro h200
        exfalso
        simp [deleteMealById, hfind] at h200
  | some m =>
      have hm : m ∈ store := List.mem_of_find?_eq_some hfind
      have hpm : m.id = mid := by simpa using List.find?_some hfind
      have herased : ∀ x ∈ store.eraseP (fun m => decide (m.id = mid)), x.id ≠ mid := by
        obtain ⟨a, l₁, l₂, hl₁, hpa, hsplit, herase⟩ :=
          List.exists_of_eraseP (p := fun m => decide (m.id = mid)) hm
            (decide_eq_true hpm)
        rw [herase]
        intro x hx hxid
        have haid : a.id = mid := by simpa using hpa
        have hids : ((l₁ ++ a :: l₂).map Meal.id).Nodup := by
          rw [← hsplit]; exact hnodup
        rw [List.map_append, List.map_cons] at hids
        rcases List.mem_append.mp hx with hx1 | hx2
        · have : a.id ∈ l₁.map Meal.id := by
            rw [haid, ← hxid]; exact List.mem_map.mpr ⟨x, hx1, rfl⟩
          exact (List.disjoint_of_nodup_append hids this) (List.mem_cons_self _ _)
        · have hcons : (a.id :: l₂.map Meal.id).Nodup :=
            (List.nodup_append.mp hids).2.1
          exact (List.nodup_cons.mp hcons).1
            (by rw [haid, ← hxid]; exact List.mem_map.mpr ⟨x, hx2, rfl⟩)
      have hfind2 : (store.eraseP (fun m => decide (m.id = mid))).find?
          (fun m => decide (m.id = mid)) = none :=
        List.find?_eq_none.mpr (fun x hx => by simpa using herased x hx)
      refine ⟨⟨fun h404 => ?_, fun hall => ?_⟩, fun h404 => ?_, fun _ => ?_⟩
      · exfalso
        simp [deleteMealById, hfind] at h404
      · exfalso
        exact hall m hm hpm
      · exfalso
        simp [deleteMealById, hfind] at h404
      · constructor
        · simp [deleteMealById, hfind, hfind2]
        · simp [deleteMealById, hfind, hfind2]

/-- C9 witness: a two-meal store with distinct ids; deleting id 1 twice. -/
theorem deleteMealById_idempotent_witness :
    (([⟨1, 1, "a", [], "snack", 1, 1, 1, 1, 0⟩,
       ⟨2, 1, "b", [], "snack", 1, 1, 1, 1, 1⟩] : List Meal).map Meal.id).Nodup ∧
    ((deleteMealById [⟨1, 1, "a", [], "snack", 1, 1, 1, 1, 0⟩,
        ⟨2, 1, "b", [], "snack", 1, 1, 1, 1, 1⟩] 1).1.status = 200 →
      (deleteMealById (deleteMealById [⟨1, 1, "a", [], "snack", 1, 1, 1, 1, 0⟩,
          ⟨2, 1, "b", [], "snack", 1, 1, 1, 1, 1⟩] 1).2 1).1.status = 404 ∧
      (deleteMealById (deleteMealById [⟨1, 1, "a", [], "snack", 1, 1, 1, 1, 0⟩,
          ⟨2, 1, "b", [], "snack", 1, 1, 1, 1, 1⟩] 1).2 1).2 =
        (deleteMealById [⟨1, 1, "a", [], "snack", 1, 1, 1, 1, 0⟩,
          ⟨2, 1, "b", [], "snack", 1, 1, 1, 1, 1⟩] 1).2) :=
  ⟨by decide,
   (deleteMealById_idempotent [⟨1, 1, "a", [], "snack", 1, 1, 1, 1, 0⟩,
      ⟨2, 1, "b", [], "snack", 1, 1, 1, 1, 1⟩] 1 (by decide)).2.2⟩

/-! ## Image upload to the prediction gateway (POST /api/meals/add)

Two variants again: src/unnamed/part_000 lines 49-110 unlinks the multer
temp file on both the success and the catch path; mealHistory.js lines 19-57
stores the upload with multer to uploads/ and has no unlink anywhere. The
outbound call and the filesystem are the effects, modelled explicitly. -/

/-- Result of the forwarded ML request: a payload, or a failure (network
error, non-2xx, timeout) carrying the upstream error message. -/
inductive UpstreamResult where
  | ok (payload : String)
  | failed (message : String)
deriving DecidableEq, Repr

/-- HTTP response of an /add handler. -/
structure AddResponse where
  status : ℕ
  success : Bool
  message : String
  error : Option String
deriving DecidableEq, Repr

/-- Observable outcome of an /add request: the response together with whether
the uploaded temporary file is still on disk afterwards. -/
structure AddOutcome where
  response : AddResponse
  tempFileOnDisk : Bool
deriving DecidableEq, Repr

/-- POST /add of src/unnamed/part_000: 400 when no file was uploaded;
otherwise forward to the ML endpoint; the temp file is unlinked on the
success path (lines 82-85) and on the catch path (lines 100-102); a failure
answers 500 with the upstream message in the `error` field. -/
def addMeal (fileUploaded : Bool) (upstream : UpstreamResult) : AddOutcome :=
  if !fileUploaded then
    ⟨⟨400, false, "No image provided", none⟩, false⟩
  else
    match upstream with
    | .ok _ => ⟨⟨200, true, "Image analyzed successfully", none⟩, false⟩
    | .failed msg =>
        ⟨⟨500, false,
          "ML model unavailable. Check ML_API_URL and Hugging Face Space status.",
          some msg⟩, false⟩

/-- POST /add of mealHistory.js: multer (disk storage, dest uploads/) has
already written the temp file when the handler runs; no branch of the handler
unlinks it; a thrown error answers 500 with the error message. -/
def addMealAlt (fileUploaded : Bool) (upstream : UpstreamResult) : AddOutcome :=
  if !fileUploaded then
    ⟨⟨400, false, "No image provided", none⟩, false⟩
  else
    match upstream with
    | .ok _ => ⟨⟨200, true, "Meal added successfully", none⟩, true⟩
    | .failed msg => ⟨⟨500, false, "", some msg⟩, true⟩

/-- C6 counterexample: in the mealHistory.js /add variant an upstream failure
(e.g. a timeout) leaves the uploaded temporary file on disk — the handler
has no cleanup on any path — even though the response is the expected 500. -/
theorem addMealAlt_leaks_file :
    (addMealAlt true (.failed "timeout of 30000ms exceeded")).tempFileOnDisk
      = true ∧
    (addMealAlt true (.failed "timeout of 30000ms exceeded")).response.status
      = 500 :=
  ⟨rfl, rfl⟩

/-- C6 (amended): the part_000 /add handler deletes the temporary file on
the success path and on every failure path, and a failure answers 500 with
the upstream error message attached. -/
theorem addMeal_cleanup (fileUploaded : Bool) (upstream : UpstreamResult) :
    (addMeal fileUploaded upstream).tempFileOnDisk = false ∧
    (∀ msg, upstream = .failed msg →
      (addMeal fileUploaded upstream).response.status = 500 ∨
      (addMeal fileUploaded upstream).response.status = 400) ∧
    (∀ msg, fileUploaded = true → upstream = .failed msg →
      (addMeal fileUploaded upstream).response.status = 500 ∧
      (addMeal fileUploaded upstream).response.error = some msg) := by
  cases fileUploaded <;> cases upstream <;> simp [addMeal]

/-- C6 amended-claim witness: an uploaded file with an upstream failure. -/
theorem addMeal_cleanup_witness :
    (addMeal true (.failed "Request failed with status code 503")).tempFileOnDisk
      = false ∧
    (addMeal true (.failed "Request failed with status code 503")).response.status
      = 500 ∧
    (addMeal true (.failed "Request failed with status code 503")).response.error
      = some "Request failed with status code 503" :=
  ⟨(addMeal_cleanup true (.failed "Request failed with status code 503")).1,
   ((addMeal_cleanup true (.failed "Request failed with status code 503")).2.2
      "Request failed with status code 503" rfl rfl).1,
   ((addMeal_cleanup true (.failed "Request failed with status code 503")).2.2
      "Request failed with status code 503" rfl rfl).2⟩

/-! ## Auth routes (src/unnamed/part_001, routes/auth.js) -/

/-- A stored user record. The User model (models/User.js, not under src/)
hashes the password before persisting; the stored credential is kept
abstract as the string the model received, and password comparison is the
model's opaque comparePassword predicate, a parameter below. -/
structure User where
  id : ℕ
  name : String
  username : String
  password : String
deriving DecidableEq, Repr

/-- Claims of a signed session token: `jwt.sign(\x7bid, username\x7d, ...)`. -/
structure Token where
  id : ℕ
  username : String
deriving DecidableEq, Repr

/-- JSON response of the auth routes. -/
structure AuthResponse where
  status : ℕ
  success : Bool
  message : String
  token : Option Token
deriving DecidableEq, Repr

/-- POST /api/auth/signup (part_001 lines 87-144): 400 when a field is
missing or empty (falsy), 400 when the username already exists, otherwise
store the user and issue a token; `newId` is the id the store generates. -/
def signup (store : List User) (newId : ℕ) (name username password : String) :
    AuthResponse × List User :=
  if name = "" ∨ username = "" ∨ password = "" then
    (⟨400, false, "Missing required fields", none⟩, store)
  else if store.any (fun u => u.username = username) then
    (⟨400, false, "Username already exists", none⟩, store)
  else
    (⟨200, true, "Signup successful", some ⟨newId, username⟩⟩,
      store ++ [⟨newId, name, username, password⟩])

/-- C7 counterexample: a signup whose username "alice" is fresh (the store is
empty) but whose name is empty stores nothing and issues no token — the
validation rejects it before any record is created. -/
theorem signup_empty_name_no_record :
    (∀ u ∈ ([] : List User), u.username ≠ "alice") ∧
    (signup [] 0 "" "alice" "pw").2 = [] ∧
    (signup [] 0 "" "alice" "pw").1.token = none :=
  ⟨by simp, rfl, rfl⟩

/-- C7 (amended): for signup requests whose name, username and password are
all non-empty: an existing username answers 400 "Username already exists"
with the store unchanged; a fresh username appends exactly one record with
that username and issues a token. -/
theorem signup_spec (store : List User) (newId : ℕ) (n u p : String)
    (hn : n ≠ "") (hu : u ≠ "") (hp : p ≠ "") :
    ((∃ usr ∈ store, usr.username = u) →
      signup store newId n u p =
        (⟨400, false, "Username already exists", none⟩, store)) ∧
    ((∀ usr ∈ store, usr.username ≠ u) →
      signup store newId n u p =
        (⟨200, true, "Signup successful", some ⟨newId, u⟩⟩,
          store ++ [⟨newId, n, u, p⟩])) := by
  constructor
  · rintro ⟨usr, hmem, husr⟩
    have hany : store.any (fun x => decide (x.username = u)) = true :=
      List.any_eq_true.mpr ⟨usr, hmem, decide_eq_true husr⟩
    simp [signup, hn, hu, hp, hany]
  · intro hall
    have hany : store.any (fun x => decide (x.username = u)) = false := by
      rw [List.any_eq_false]
      intro x hx
      simpa using hall x hx
    simp [signup, hn, hu, hp, hany]

/-- C7 amended-claim witness: a duplicate signup against a one-user store,
and a fresh signup against the empty store. -/
theorem signup_spec_witness :
    signup [⟨1, "Bob", "bob", "h"⟩] 2 "Bob2" "bob" "pw" =
      (⟨400, false, "Username already exists", none⟩, [⟨1, "Bob", "bob", "h"⟩]) ∧
    signup [] 1 "Alice" "alice" "pw" =
      (⟨200, true, "Signup successful", some ⟨1, "alice"⟩⟩,
        [⟨1, "Alice", "alice", "pw"⟩]) :=
  ⟨(signup_spec [⟨1, "Bob", "bob", "h"⟩] 2 "Bob2" "bob" "pw"
      (by decide) (by decide) (by decide)).1
    ⟨⟨1, "Bob", "bob", "h"⟩, by simp, rfl⟩,
   by
    have h := (signup_spec [] 1 "Alice" "alice" "pw"
      (by decide) (by decide) (by decide)).2 (by simp)
    simpa using h⟩

/-- POST /api/auth/login (part_001 lines 146-213): 400 when a field is
missing; 401 "Invalid credentials" when the username is unknown; the model's
comparePassword decides the password (models/User.js is not under src/, so
`check` is an opaque parameter); 401 with the identical message when it
fails; 200 with a token otherwise. -/
def login (check : User → String → Bool) (store : List User)
    (username password : String) : AuthResponse :=
  if username = "" ∨ password = "" then
    ⟨400, false, "Username and password required", none⟩
  else
    match store.find? (fun u => u.username = username) with
    | none => ⟨401, false, "Invalid credentials", none⟩
    | some user =>
        if check user password then
          ⟨200, true, "Login successful", some ⟨user.id, user.username⟩⟩
        else ⟨401, false, "Invalid credentials", none⟩

/-- C8: every failing login — whether the username is unknown or the
password comparison fails — yields the identical response: status 401,
message "Invalid credentials", no token; the two causes are
indistinguishable to the client. -/
theorem login_uniform_failure (check : User → String → Bool) (store : List User)
    (u p : String) (hu : u ≠ "") (hp : p ≠ "")
    (hfail : store.find? (fun x => x.username = u) = none ∨
      ∃ usr, store.find? (fun x => x.username = u) = some usr ∧
        check usr p = false) :
    login check store u p = ⟨401, false, "Invalid credentials", none⟩ := by
  rcases hfail with hnone | ⟨usr, hsome, hcheck⟩
  · simp [login, hu, hp, hnone]
  · simp [login, hu, hp, hsome, hcheck]

/-- C8 witness: both failure causes at concrete inputs give the same
response object. -/
theorem login_uniform_failure_witness :
    login (fun _ _ => false) [⟨1, "B", "bob", "h"⟩] "bob" "pw" =
      ⟨401, false, "Invalid credentials", none⟩ ∧
    login (fun _ _ => false) [] "alice" "pw" =
      ⟨401, false, "Invalid credentials", none⟩ :=
  ⟨login_uniform_failure (fun _ _ => false) [⟨1, "B", "bob", "h"⟩] "bob" "pw"
      (by decide) (by decide)
      (Or.inr ⟨⟨1, "B", "bob", "h"⟩, rfl, rfl⟩),
   login_uniform_failure (fun _ _ => false) [] "alice" "pw"
      (by decide) (by decide) (Or.inl rfl)⟩

end NutriTracker
